import Mathlib

/-!
Verification of the financial-document ingestion core.

Shallow embedding of:
* `src/ingestion/utils/number_parser.py` (`NumberParser.parse_financial_number`)
* `src/ingestion/utils/confidence_scorer.py` (`ConfidenceScorer.should_flag_for_review`)
* `src/ingestion/services/validator.py` (`ValidationResult`, range /
  relationship / completeness / confidence passes, `validate_all`)
* `src/ingestion/functions/status_handler.py`
  (`_determine_status_from_logs`, `_calculate_progress`)
* `src/ingestion/functions/retry_handler.py` (`_check_retry_eligibility`)

Python strings are modelled as `List Char`; Python floats as `ℚ` (exact real
arithmetic — the claims under scrutiny state exact arithmetic predicates and
every concrete test value is exactly representable).  Python `None` is
`Option.none`.  Event logs are lists (newest first, as produced by the
Cosmos queries the handlers call).
-/

/-! ## Generic string (List Char) utilities mirroring Python `str` methods -/

/-- Python `str.strip()` from the left: drop leading whitespace. -/
def py_strip_left (t : List Char) : List Char :=
  t.dropWhile Char.isWhitespace

/-- Python `str.strip()`: drop leading and trailing whitespace. -/
def py_strip (t : List Char) : List Char :=
  ((py_strip_left t).reverse.dropWhile Char.isWhitespace).reverse

/-- Python `needle in haystack` (substring test). -/
def sub_list (pat : List Char) : List Char → Bool
  | [] => pat.isEmpty
  | a :: rest => pat.isPrefixOf (a :: rest) || sub_list pat rest

/-- Python `haystack.replace(pat, rep)` (all non-overlapping occurrences,
left to right), written with explicit fuel so that the recursion is
structural; `replace_all` below instantiates the fuel with the list length,
which always suffices since every step consumes at least one character. -/
def replace_all_aux (pat rep : List Char) : ℕ → List Char → List Char
  | 0, t => t
  | _ + 1, [] => []
  | fuel + 1, a :: rest =>
    if pat ≠ [] ∧ pat.isPrefixOf (a :: rest) then
      rep ++ replace_all_aux pat rep fuel ((a :: rest).drop pat.length)
    else
      a :: replace_all_aux pat rep fuel rest

/-- Python `haystack.replace(pat, rep)`. -/
def replace_all (pat rep t : List Char) : List Char :=
  replace_all_aux pat rep t.length t

/-- Python `haystack.replace(pat, rep, 1)`: replace the first occurrence only. -/
def replace_one (pat rep : List Char) : List Char → List Char
  | [] => []
  | a :: rest =>
    if pat ≠ [] ∧ pat.isPrefixOf (a :: rest) then
      rep ++ (a :: rest).drop pat.length
    else
      a :: replace_one pat rep rest

/-- Substring test on Lean `String`s (used for the validator's message texts). -/
def str_contains (hay pat : String) : Bool :=
  sub_list pat.toList hay.toList

/-! ## Number parser (`number_parser.py`) -/

namespace NumberParser

/-- `NumberParser.CURRENCY_SYMBOLS` (stripping order as in the source). -/
def CURRENCY_SYMBOLS : List (List Char) :=
  ["$".toList, "€".toList, "£".toList, "¥".toList, "₹".toList,
   "USD".toList, "EUR".toList, "GBP".toList, "JPY".toList, "INR".toList]

/-- The `currency_map` of `_detect_currency`, in source order. -/
def currency_map : List (List Char × String) :=
  [("$".toList, "USD"), ("€".toList, "EUR"), ("£".toList, "GBP"),
   ("¥".toList, "JPY"), ("₹".toList, "INR"),
   ("USD".toList, "USD"), ("EUR".toList, "EUR"), ("GBP".toList, "GBP"),
   ("JPY".toList, "JPY"), ("INR".toList, "INR")]

/-- `NumberParser._detect_currency`: first map entry whose symbol occurs in
the text. -/
def detect_currency (t : List Char) : Option String :=
  (currency_map.find? (fun p => sub_list p.1 t)).map (·.2)

/-- The currency-symbol stripping loop (`text.replace(symbol, "")` for each
symbol, in order). -/
def strip_currency (t : List Char) : List Char :=
  CURRENCY_SYMBOLS.foldl (fun acc sym => replace_all sym [] acc) t

/-- `NumberParser.MAGNITUDE_MULTIPLIERS`, in source (insertion) order. -/
def MAGNITUDE_MULTIPLIERS : List (List Char × ℚ) :=
  [("K".toList, 1000), ("M".toList, 1000000),
   ("B".toList, 1000000000), ("T".toList, 1000000000000),
   ("THOUSAND".toList, 1000), ("MILLION".toList, 1000000),
   ("BILLION".toList, 1000000000), ("TRILLION".toList, 1000000000000)]

/-- The magnitude-suffix loop: first suffix (in dictionary order) that the
upper-cased text ends with wins; the suffix is sliced off
(`text[:-len(suffix)]`) and the remainder stripped.  Returns
`(multiplier, remaining text)`. -/
def magnitude_step (t : List Char) : ℚ × List Char :=
  match MAGNITUDE_MULTIPLIERS.find? (fun p => p.1.isSuffixOf (t.map Char.toUpper)) with
  | some p => (p.2, py_strip (t.take (t.length - p.1.length)))
  | none => (1, t)

/-- Number of characters strictly after the last comma
(`len(text) - text.rfind(",") - 1` in the source, assuming a comma is
present): the length of the maximal comma-free suffix. -/
def chars_after_last_comma (t : List Char) : ℕ :=
  (t.reverse.takeWhile (fun c => c ≠ ',')).length

/-- Whether the last comma occurs after the last period
(`last_comma_pos > last_period_pos` in the source, assuming both are
present): the separator seen first when scanning from the end is a comma. -/
def last_sep_is_comma (t : List Char) : Bool :=
  match t.reverse.find? (fun c => c = ',' || c = '.') with
  | some c => c = ','
  | none => false

/-- The separator-disambiguation block (source lines 93–120). -/
def sep_step (t : List Char) : List Char :=
  let comma_count := t.count ','
  let period_count := t.count '.'
  if 0 < comma_count ∧ 0 < period_count then
    if last_sep_is_comma t then
      -- European format: text.replace(".", "").replace(",", ".")
      replace_all [','] ['.'] (replace_all ['.'] [] t)
    else
      -- US format: text.replace(",", "")
      replace_all [','] [] t
  else if 0 < comma_count then
    if chars_after_last_comma t = 2 then
      -- text.replace(",", ".", 1).replace(",", "")
      replace_all [','] [] (replace_one [','] ['.'] t)
    else
      replace_all [','] [] t
  else t

/-- Value of a digit string (most significant first). -/
def digits_val (l : List Char) : ℕ :=
  l.foldl (fun acc c => acc * 10 + (c.toNat - '0'.toNat)) 0

/-- Python `float(text)` on the cleaned string, modelled on the plain
decimal fragment `[+|-] digits [. digits]` (with at least one digit).
Exponent notation, underscores, `inf`/`nan` and non-ASCII digits — which the
ingestion pipeline never feeds to this point — are not modelled and map to
`none`. -/
def parse_float (t : List Char) : Option ℚ :=
  let sign : ℚ × List Char :=
    match t with
    | '-' :: rest => (-1, rest)
    | '+' :: rest => (1, rest)
    | _ => (1, t)
  let ip := sign.2.takeWhile Char.isDigit
  let rest := sign.2.dropWhile Char.isDigit
  match rest with
  | [] => if ip = [] then none else some (sign.1 * digits_val ip)
  | '.' :: frac =>
    if frac.all Char.isDigit ∧ ¬(ip = [] ∧ frac = []) then
      some (sign.1 * ((digits_val ip : ℚ) + (digits_val frac : ℚ) / (10 : ℚ) ^ frac.length))
    else none
  | _ => none

/-- Final stage of `parse_financial_number`: magnitude suffix, separator
cleanup, `float(...)`, sign and multiplier application (source lines
83–133). -/
def parse_core (neg : Bool) (currency : Option String) (text : List Char) :
    Option ℚ × Option String :=
  let m := magnitude_step text
  match parse_float (sep_step m.2) with
  | some v => (some (if neg then -(v * m.1) else v * m.1), currency)
  | none => (none, none)

/-- `parse_financial_number` after the initial emptiness check: strip,
currency detection and removal, parenthesised-negative handling (source
lines 64–81), then `parse_core`. -/
def parse_after_empty_check (t0 : List Char) : Option ℚ × Option String :=
  let text1 := py_strip t0
  let currency := detect_currency text1
  let text2 := py_strip (strip_currency text1)
  if text2.head? = some '(' ∧ text2.getLast? = some ')' then
    parse_core true currency (py_strip ((text2.drop 1).dropLast))
  else
    parse_core false currency text2

/-- `NumberParser.parse_financial_number`.  The argument is `none` for
Python `None` / non-string input (rejected by the `isinstance` guard),
`some text` otherwise. -/
def parse_financial_number (input : Option (List Char)) : Option ℚ × Option String :=
  match input with
  | none => (none, none)
  | some t0 => if t0 = [] then (none, none) else parse_after_empty_check t0

end NumberParser

/-! ## Confidence scorer (`confidence_scorer.py`) -/

namespace ConfidenceScorer

/-- `ConfidenceScorer.should_flag_for_review` (source lines 164–183): the
decision reads only the metric-level threshold. -/
def should_flag_for_review (confidence document_threshold metric_threshold : ℚ) : Bool :=
  decide (confidence < metric_threshold)

end ConfidenceScorer

/-! ## Validator (`validator.py`) -/

/-- `ValidationResult.__init__`: empty error/warning lists, status
`"passed"`. -/
structure ValidationResult where
  errors : List String
  warnings : List String
  validation_status : String
deriving DecidableEq, Repr

namespace ValidationResult

/-- Freshly constructed `ValidationResult()`. -/
def init : ValidationResult := ⟨[], [], "passed"⟩

/-- `ValidationResult.add_error`. -/
def add_error (r : ValidationResult) (e : String) : ValidationResult :=
  ⟨r.errors ++ [e], r.warnings, "failed"⟩

/-- `ValidationResult.add_warning`. -/
def add_warning (r : ValidationResult) (w : String) : ValidationResult :=
  ⟨r.errors, r.warnings ++ [w],
   if r.validation_status = "passed" then "flagged" else r.validation_status⟩

/-- `ValidationResult.requires_manual_review`. -/
def requires_manual_review (r : ValidationResult) : Bool :=
  r.validation_status = "flagged" || r.validation_status = "failed"

end ValidationResult

/-- One extracted financial metric, with the fields the validator reads
(`metric["metric_type"]`, `metric["metric_name"]`, `metric["value"]`,
`metric["confidence_score"]`). -/
structure Metric where
  metric_type : String
  metric_name : String
  value : ℚ
  confidence_score : ℚ
deriving DecidableEq, Repr

/-- Stand-in for Python's `f"{x:,.2f}"` numeric rendering inside the
validator's message strings.  The digits rendering is irrelevant to every
property proved here (only the literal English templates are inspected), so
the plain `ℚ` rendering is used. -/
def fmt_q (q : ℚ) : String := toString q

namespace Validator

/-- `Validator.REQUIRED_INCOME_STATEMENT_METRICS`. -/
def REQUIRED_INCOME_STATEMENT_METRICS : List String := ["revenue", "net_income"]

/-- `Validator.RECOMMENDED_INCOME_STATEMENT_METRICS`. -/
def RECOMMENDED_INCOME_STATEMENT_METRICS : List String :=
  ["cogs", "gross_profit", "operating_expenses"]

/-- `Validator.VALUE_RANGES`. -/
def VALUE_RANGES : List (String × ℚ × ℚ) :=
  [("revenue", 0, 1000000000000),
   ("cogs", 0, 1000000000000),
   ("gross_profit", -1000000000000, 1000000000000),
   ("operating_expenses", 0, 1000000000000),
   ("operating_income", -1000000000000, 1000000000000),
   ("ebitda", -1000000000000, 1000000000000),
   ("net_income", -1000000000000, 1000000000000)]

/-- `Validator.validate_completeness` (the `extraction_result` argument is
unused by the logic). -/
def validate_completeness (metrics : List Metric) : ValidationResult :=
  let metric_types := metrics.map (·.metric_type)
  let r := REQUIRED_INCOME_STATEMENT_METRICS.foldl
    (fun r req =>
      if req ∈ metric_types then r
      else r.add_error ("Missing required metric: " ++ req ++
        ". Income statement must include revenue and net income."))
    ValidationResult.init
  let r := RECOMMENDED_INCOME_STATEMENT_METRICS.foldl
    (fun r rec =>
      if rec ∈ metric_types then r
      else r.add_warning ("Missing recommended metric: " ++ rec ++
        ". Consider verifying if this metric should be present in the document."))
    r
  if metrics.length < 3 then
    r.add_warning ("Only " ++ toString metrics.length ++
      " financial metrics extracted. Expected at least 3-5 metrics for a complete income statement.")
  else r

/-- The error message of the `revenue <= 0` rule in `validate_ranges`. -/
def must_be_positive_msg (m : Metric) : String :=
  m.metric_name ++ ": Revenue must be positive (got " ++ fmt_q m.value ++
    "). Negative or zero revenue indicates extraction error."

/-- The per-metric body of the `validate_ranges` loop. -/
def range_step (r : ValidationResult) (m : Metric) : ValidationResult :=
  match VALUE_RANGES.find? (fun p => p.1 == m.metric_type) with
  | none => r
  | some p =>
    let r := if m.value < p.2.1 ∨ m.value > p.2.2 then
        r.add_error (m.metric_name ++ ": Value " ++ fmt_q m.value ++
          " is outside reasonable range [" ++ fmt_q p.2.1 ++ ", " ++ fmt_q p.2.2 ++
          "]. This may indicate OCR extraction error or data quality issue.")
      else r
    let r := if m.metric_type = "revenue" ∧ m.value ≤ 0 then
        r.add_error (must_be_positive_msg m)
      else r
    let r := if |m.value| > 100000000000 then
        r.add_warning (m.metric_name ++ ": Value " ++ fmt_q m.value ++
          " is unusually large (> $100B). Please verify this is correct.")
      else r
    if |m.value| < 1000 ∧ m.metric_type ∈ ["revenue", "cogs", "operating_expenses"] then
      r.add_warning (m.metric_name ++ ": Value " ++ fmt_q m.value ++
        " is unusually small (< $1,000). Verify the correct magnitude was extracted (check for K/M/B suffixes).")
    else r

/-- `Validator.validate_ranges`. -/
def validate_ranges (metrics : List Metric) : ValidationResult :=
  metrics.foldl range_step ValidationResult.init

/-- `Validator.validate_confidence`, parameterised by the two configured
thresholds (`config.ocr_confidence_threshold_document`, default 0.75, and
`config.ocr_confidence_threshold_metric`, default 0.70) and by the
extraction result's `ocr_confidence_avg`. -/
def validate_confidence (metrics : List Metric)
    (doc_confidence doc_threshold metric_threshold : ℚ) : ValidationResult :=
  let r := ValidationResult.init
  let r := if doc_confidence < doc_threshold then
      r.add_warning ("Document OCR confidence " ++ fmt_q doc_confidence ++
        " is below threshold " ++ fmt_q doc_threshold ++
        ". Extracted data may require manual verification. Consider re-scanning with higher quality or enhanced OCR.")
    else r
  let low := metrics.filter (fun m => m.confidence_score < metric_threshold)
  let low_descs := low.map (fun m => m.metric_name ++ " (confidence: " ++ fmt_q m.confidence_score ++ ")")
  let r := if low_descs ≠ [] then
      r.add_warning (toString low_descs.length ++ " metric(s) have low confidence (< " ++
        fmt_q metric_threshold ++ "): " ++ String.intercalate ", " (low_descs.take 3) ++
        (if low_descs.length > 3 then "..." else ""))
    else r
  if doc_confidence < 6 / 10 then
    r.add_error ("Document OCR confidence " ++ fmt_q doc_confidence ++
      " is critically low (< 0.60). Extraction results are unreliable and require manual data entry.")
  else r

/-- The `metric_lookup` dict comprehension of `validate_relationships`:
dictionary insertion means the last metric of a given type wins. -/
def lookup_val (metrics : List Metric) (ty : String) : Option ℚ :=
  (metrics.reverse.find? (fun m => m.metric_type == ty)).map (·.value)

/-- The warning message of the gross-profit mismatch rule. -/
def mismatch_msg (calculated revenue cogs gross_profit : ℚ) : String :=
  "Gross Profit mismatch: Expected " ++ fmt_q calculated ++
    " (Revenue " ++ fmt_q revenue ++ " - COGS " ++ fmt_q cogs ++
    "), but got " ++ fmt_q gross_profit ++ ". Verify extraction accuracy."

/-- The error message of the gross-profit sign rule. -/
def gp_sign_msg (gross_profit : ℚ) : String :=
  "Gross Profit should be positive when Revenue > COGS. Got Gross Profit=" ++
    fmt_q gross_profit

/-- `Validator.validate_relationships`. -/
def validate_relationships (metrics : List Metric) : ValidationResult :=
  let r := ValidationResult.init
  let r := match lookup_val metrics "revenue", lookup_val metrics "cogs",
      lookup_val metrics "gross_profit" with
    | some revenue, some cogs, some gross_profit =>
      let calculated := revenue - cogs
      let tolerance := |calculated| * (1 / 100)
      if |gross_profit - calculated| > max tolerance 1000 then
        r.add_warning (mismatch_msg calculated revenue cogs gross_profit)
      else r
    | _, _, _ => r
  match lookup_val metrics "revenue", lookup_val metrics "cogs" with
  | some revenue, some cogs =>
    if revenue > cogs then
      match lookup_val metrics "gross_profit" with
      | some gross_profit =>
        if gross_profit ≤ 0 then r.add_error (gp_sign_msg gross_profit)
        else r
      | none => r
    else r
  | _, _ => r

/-- `Validator.validate_all`: run the four passes, concatenate errors and
warnings (completeness, range, confidence, relationship order), recompute
the overall status. -/
def validate_all (metrics : List Metric)
    (doc_confidence doc_threshold metric_threshold : ℚ) : ValidationResult :=
  let completeness := validate_completeness metrics
  let ranges := validate_ranges metrics
  let conf := validate_confidence metrics doc_confidence doc_threshold metric_threshold
  let rel := validate_relationships metrics
  let errors := completeness.errors ++ ranges.errors ++ conf.errors ++ rel.errors
  let warnings := completeness.warnings ++ ranges.warnings ++ conf.warnings ++ rel.warnings
  { errors := errors
    warnings := warnings
    validation_status :=
      if errors ≠ [] then "failed" else if warnings ≠ [] then "flagged" else "passed" }

end Validator

/-! ## Processing state machine (`status_handler.py`) -/

namespace StatusHandler

/-- `_determine_status_from_logs` status chain (source lines 242–251),
as a function of the collected event types (`all_events`; membership is all
the source reads, so a list of event types stands in for the Python set). -/
def determine_status (events : List String) : String :=
  if "failed" ∈ events then "failed"
  else if "validation_completed" ∈ events then "completed"
  else if "validation_started" ∈ events ∨ "extraction_started" ∈ events then "processing"
  else if "queued" ∈ events ∨ "ingestion_started" ∈ events then "queued"
  else "unknown"

/-- The `stages` table of `_calculate_progress`. -/
def STAGES : List (String × List String) :=
  [("upload", ["queued"]),
   ("ingestion", ["ingestion_started"]),
   ("extraction", ["extraction_started", "extraction_completed"]),
   ("validation", ["validation_started", "validation_completed"])]

/-- Result record of `_calculate_progress`. -/
structure Progress where
  current_stage : String
  stages_completed : List String
  completion_percentage : ℕ
deriving DecidableEq, Repr

/-- `_calculate_progress`: a stage is completed when any of its trigger
events is present; `current_stage` is the last completed stage (or
`"queued"`); percentage is `int(len(completed)/4 * 100)` (exact for the
0–4 possible counts, hence the `ℕ` arithmetic). -/
def calculate_progress (events : List String) : Progress :=
  let completed := (STAGES.filter (fun p => p.2.any (fun e => decide (e ∈ events)))).map (·.1)
  { current_stage := (completed.getLast?).getD "queued"
    stages_completed := completed
    completion_percentage := completed.length * 100 / 4 }

end StatusHandler

/-! ## Retry handler (`retry_handler.py`) -/

namespace RetryHandler

/-- The two `event_data` keys `_check_retry_eligibility` reads.  A key
missing from the payload dict is `none`. -/
structure EventData where
  document_name : Option String
  document_type : Option String
deriving DecidableEq, Repr

/-- One processing-log entry as consumed by `_check_retry_eligibility`. -/
structure PLog where
  event_type : String
  event_data : EventData
deriving DecidableEq, Repr

/-- Python truthiness of `dict.get(key)`: present and a non-empty string. -/
def truthy : Option String → Bool
  | some s => s ≠ ""
  | none => false

/-- The `document_info` accumulator: oldest-to-newest scan, each key
overwritten whenever present in the current payload, with the source's
early `break` once both values are present and truthy (Python truthiness:
a non-empty string). -/
def scan_info_aux (acc : EventData) : List PLog → EventData
  | [] => acc
  | l :: rest =>
    let name := match l.event_data.document_name with
      | some v => some v
      | none => acc.document_name
    let ty := match l.event_data.document_type with
      | some v => some v
      | none => acc.document_type
    let acc := EventData.mk name ty
    if truthy acc.document_name && truthy acc.document_type then acc
    else scan_info_aux acc rest

/-- `document_info` recovered from `reversed(processing_logs)` (the logs
are newest first, so the scan runs oldest to newest). -/
def scan_info (logs : List PLog) : EventData :=
  scan_info_aux ⟨none, none⟩ logs.reverse

/-- `_check_retry_eligibility` (source lines 221–288), as the pair
`(eligible, reason)` it computes from the queried logs (newest first). -/
def check_retry_eligibility (logs : List PLog) : Bool × String :=
  if logs = [] then
    (false, "Document not found in processing logs")
  else
    let event_types := logs.map (·.event_type)
    if "failed" ∉ event_types then
      if "validation_completed" ∈ event_types then
        (false, "Document processing already completed successfully")
      else
        (false, "Document is still processing or not in failed state")
    else
      let info := scan_info logs
      if info.document_name = none ∧ info.document_type = none then
        (false, "Document metadata not found in processing logs")
      else
        let retry_count := logs.countP (fun l => l.event_type == "retry_initiated")
        if 5 ≤ retry_count then
          (false, "Maximum retry attempts exceeded (5 retries already attempted)")
        else
          (true, "Document failed and is eligible for retry")

end RetryHandler

/-! ## Helper lemmas -/

namespace ValidationResult

/-- The status/lists relationship the spec states for `ValidationResult`. -/
def status_inv (r : ValidationResult) : Prop :=
  (r.validation_status = "failed" ↔ r.errors ≠ []) ∧
  (r.validation_status = "flagged" ↔ (r.errors = [] ∧ r.warnings ≠ [])) ∧
  (r.validation_status = "passed" ↔ (r.errors = [] ∧ r.warnings = []))

theorem status_inv_init : status_inv init := by
  simp [status_inv, init]

theorem status_inv_add_error (r : ValidationResult) (e : String) :
    status_inv (r.add_error e) := by
  simp [status_inv, add_error]

theorem status_inv_add_warning {r : ValidationResult} (h : status_inv r) (w : String) :
    status_inv (r.add_warning w) := by
  obtain ⟨hf, hg, hp⟩ := h
  by_cases he : r.errors = []
  · by_cases hw : r.warnings = []
    · have : r.validation_status = "passed" := hp.mpr ⟨he, hw⟩
      simp [status_inv, add_warning, this, he]
    · have : r.validation_status = "flagged" := hg.mpr ⟨he, hw⟩
      simp [status_inv, add_warning, this, he]
  · have : r.validation_status = "failed" := hf.mpr he
    simp [status_inv, add_warning, this, he]

end ValidationResult

/-! ### A `ValidationResult` built by an arbitrary sequence of
`add_error` / `add_warning` calls -/

/-- One mutation of a `ValidationResult` (an `add_error` or `add_warning`
call). -/
inductive VOp where
  | err : String → VOp
  | warn : String → VOp
deriving DecidableEq, Repr

/-- Apply one mutation. -/
def apply_op (r : ValidationResult) : VOp → ValidationResult
  | .err e => r.add_error e
  | .warn w => r.add_warning w

/-- The `ValidationResult` produced by a fresh construction followed by an
arbitrary call sequence. -/
def build_result (ops : List VOp) : ValidationResult :=
  ops.foldl apply_op ValidationResult.init

theorem status_inv_apply_op {r : ValidationResult} (h : r.status_inv) (op : VOp) :
    (apply_op r op).status_inv := by
  cases op with
  | err e => exact ValidationResult.status_inv_add_error r e
  | warn w => exact ValidationResult.status_inv_add_warning h w

theorem status_inv_foldl {r : ValidationResult} (h : r.status_inv) (ops : List VOp) :
    (ops.foldl apply_op r).status_inv := by
  induction ops generalizing r with
  | nil => exact h
  | cons op rest ih => exact ih (status_inv_apply_op h op)

theorem status_inv_build (ops : List VOp) : (build_result ops).status_inv :=
  status_inv_foldl ValidationResult.status_inv_init ops

/-! ## C9 -/

/-- C9: `should_flag_for_review` returns the same verdict for any two
values of the document-level threshold parameter, and that verdict is
`confidence < metric_threshold`. -/
theorem claim_c9 : ∀ confidence dt dt' mt : ℚ,
    ConfidenceScorer.should_flag_for_review confidence dt mt =
      ConfidenceScorer.should_flag_for_review confidence dt' mt
    ∧ (ConfidenceScorer.should_flag_for_review confidence dt mt = true ↔ confidence < mt) := by
  intro confidence dt dt' mt
  exact ⟨rfl, by simp [ConfidenceScorer.should_flag_for_review]⟩

/-- Witness for C9 at confidence 0.5 and thresholds 0.75 / 0.9 / 0.7. -/
theorem claim_c9_witness :
    ConfidenceScorer.should_flag_for_review (1/2) (3/4) (7/10) =
      ConfidenceScorer.should_flag_for_review (1/2) (9/10) (7/10)
    ∧ (ConfidenceScorer.should_flag_for_review (1/2) (3/4) (7/10) = true ↔ (1/2 : ℚ) < 7/10) :=
  claim_c9 (1/2) (3/4) (9/10) (7/10)

/-! ## C2 -/

/-- C2: a `failed` event always forces status `"failed"` regardless of the
other events; otherwise the status is `"completed"` / `"processing"` /
`"queued"` / `"unknown"` following exactly the spec's precedence chain; and
on any log whose event-type set is exactly
`{queued, extraction_started, failed}`, status is `"failed"`, the current
stage is `"extraction"` and completion is 50%. -/
theorem claim_c2 :
    (∀ events : List String, "failed" ∈ events →
      StatusHandler.determine_status events = "failed")
    ∧ (∀ events : List String, "failed" ∉ events → "validation_completed" ∈ events →
      StatusHandler.determine_status events = "completed")
    ∧ (∀ events : List String, "failed" ∉ events → "validation_completed" ∉ events →
      ("validation_started" ∈ events ∨ "extraction_started" ∈ events) →
      StatusHandler.determine_status events = "processing")
    ∧ (∀ events : List String, "failed" ∉ events → "validation_completed" ∉ events →
      "validation_started" ∉ events → "extraction_started" ∉ events →
      ("queued" ∈ events ∨ "ingestion_started" ∈ events) →
      StatusHandler.determine_status events = "queued")
    ∧ (∀ events : List String, "failed" ∉ events → "validation_completed" ∉ events →
      "validation_started" ∉ events → "extraction_started" ∉ events →
      "queued" ∉ events → "ingestion_started" ∉ events →
      StatusHandler.determine_status events = "unknown")
    ∧ (∀ events : List String,
        (∀ e, e ∈ events ↔ e ∈ (["queued", "extraction_started", "failed"] : List String)) →
        StatusHandler.determine_status events = "failed" ∧
        StatusHandler.calculate_progress events =
          ⟨"extraction", ["upload", "extraction"], 50⟩) := by
  refine ⟨?_, ?_, ?_, ?_, ?_, ?_⟩
  · intro events h
    simp [StatusHandler.determine_status, h]
  · intro events h1 h2
    simp [StatusHandler.determine_status, h1, h2]
  · intro events h1 h2 h3
    simp [StatusHandler.determine_status, h1, h2, h3]
  · intro events h1 h2 h3 h4 h5
    simp [StatusHandler.determine_status, h1, h2, h3, h4, h5]
  · intro events h1 h2 h3 h4 h5 h6
    simp [StatusHandler.determine_status, h1, h2, h3, h4, h5, h6]
  · intro events h
    have hf : "failed" ∈ events := (h "failed").mpr (by simp)
    refine ⟨by simp [StatusHandler.determine_status, hf], ?_⟩
    simp [StatusHandler.calculate_progress, StatusHandler.STAGES, h]

/-- Witness for C2 at the concrete log `[queued, extraction_started, failed]`. -/
theorem claim_c2_witness :
    StatusHandler.determine_status ["queued", "extraction_started", "failed"] = "failed" ∧
    StatusHandler.calculate_progress ["queued", "extraction_started", "failed"] =
      ⟨"extraction", ["upload", "extraction"], 50⟩ :=
  claim_c2.2.2.2.2.2 ["queued", "extraction_started", "failed"] (fun _ => Iff.rfl)

/-! ## C10 -/

/-- C10: a log whose event-type set is exactly `{extraction_completed}`
derives status `"unknown"` (the status chain never consults
`extraction_completed`) while progress reports stage `"extraction"`,
completed stages `["extraction"]` and 25%. -/
theorem claim_c10 : ∀ events : List String,
    (∀ e, e ∈ events ↔ e = "extraction_completed") →
    StatusHandler.determine_status events = "unknown" ∧
    StatusHandler.calculate_progress events = ⟨"extraction", ["extraction"], 25⟩ := by
  intro events h
  constructor
  · simp [StatusHandler.determine_status, h]
  · simp [StatusHandler.calculate_progress, StatusHandler.STAGES, h]

/-- Witness for C10 at the concrete one-event log `[extraction_completed]`. -/
theorem claim_c10_witness :
    StatusHandler.determine_status ["extraction_completed"] = "unknown" ∧
    StatusHandler.calculate_progress ["extraction_completed"] =
      ⟨"extraction", ["extraction"], 25⟩ :=
  claim_c10 ["extraction_completed"] (fun e => List.mem_singleton)

/-! ## C3 -/

/-- C3: every `ValidationResult` reachable by `add_error`/`add_warning`
calls satisfies the status/lists equivalence; `add_error` always yields
`"failed"`; `add_warning` never downgrades `"failed"` and turns `"passed"`
into `"flagged"`; and the combined result of `validate_all` satisfies the
same equivalence. -/
theorem claim_c3 :
    (∀ ops : List VOp, (build_result ops).status_inv)
    ∧ (∀ (r : ValidationResult) (e : String),
        (r.add_error e).validation_status = "failed")
    ∧ (∀ (r : ValidationResult) (w : String), r.validation_status = "failed" →
        (r.add_warning w).validation_status = "failed")
    ∧ (∀ (r : ValidationResult) (w : String), r.validation_status = "passed" →
        (r.add_warning w).validation_status = "flagged")
    ∧ (∀ (metrics : List Metric) (dc dt mt : ℚ),
        (Validator.validate_all metrics dc dt mt).status_inv) := by
  refine ⟨status_inv_build, fun r e => rfl, ?_, ?_, ?_⟩
  · intro r w h
    simp [ValidationResult.add_warning, h]
  · intro r w h
    simp [ValidationResult.add_warning, h]
  · intro metrics dc dt mt
    dsimp only [Validator.validate_all, ValidationResult.status_inv]
    split_ifs with h1 h2 <;> simp_all

/-- Witness for C3: a result with one error keeps status `"failed"` after a
warning, and a fresh result becomes `"flagged"` after a warning. -/
theorem claim_c3_witness :
    ((ValidationResult.mk ["e"] [] "failed").add_warning "w").validation_status = "failed"
    ∧ (ValidationResult.init.add_warning "w").validation_status = "flagged" :=
  ⟨claim_c3.2.2.1 ⟨["e"], [], "failed"⟩ "w" rfl,
   claim_c3.2.2.2.1 ValidationResult.init "w" rfl⟩

/-! ### Substring-test lemmas for `sub_list` -/

theorem sub_list_nil (l : List Char) : sub_list [] l = true := by
  cases l <;> simp [sub_list, List.isPrefixOf]

theorem isPrefixOf_append_of {p l : List Char} (z : List Char)
    (h : p.isPrefixOf l = true) : p.isPrefixOf (l ++ z) = true := by
  rw [List.isPrefixOf_iff_prefix] at h ⊢
  exact h.trans (List.prefix_append l z)

theorem sub_list_append_right {p x : List Char} (z : List Char)
    (h : sub_list p x = true) : sub_list p (x ++ z) = true := by
  induction x with
  | nil =>
    simp only [sub_list, List.isEmpty_iff] at h
    subst h
    exact sub_list_nil z
  | cons a rest ih =>
    simp only [sub_list, Bool.or_eq_true, List.cons_append] at h ⊢
    rcases h with h | h
    · exact Or.inl (isPrefixOf_append_of z h)
    · exact Or.inr (ih h)

theorem sub_list_append_left {p y : List Char} (x : List Char)
    (h : sub_list p y = true) : sub_list p (x ++ y) = true := by
  induction x with
  | nil => exact h
  | cons a rest ih =>
    simp only [List.cons_append, sub_list, Bool.or_eq_true]
    exact Or.inr ih

theorem sub_list_subset {p l : List Char} (h : sub_list p l = true) : ∀ a ∈ p, a ∈ l := by
  induction l with
  | nil =>
    simp only [sub_list, List.isEmpty_iff] at h
    subst h
    simp
  | cons b rest ih =>
    simp only [sub_list, Bool.or_eq_true] at h
    rcases h with h | h
    · rw [List.isPrefixOf_iff_prefix] at h
      exact fun a ha => h.subset ha
    · exact fun a ha => List.mem_cons_of_mem b (ih h a ha)

theorem sub_list_eq_false {p l : List Char} {w : Char} (hw : w ∈ p) (hl : w ∉ l) :
    sub_list p l = false := by
  rcases hb : sub_list p l with _ | _
  · rfl
  · exact absurd (sub_list_subset hb w hw) hl

/-! ### Validator fold lemmas -/

theorem status_inv_range_step {r : ValidationResult} (h : r.status_inv) (m : Metric) :
    (Validator.range_step r m).status_inv := by
  unfold Validator.range_step
  split
  · exact h
  · split_ifs <;>
      (repeat
        first
        | exact h
        | exact ValidationResult.status_inv_add_error _ _
        | apply ValidationResult.status_inv_add_warning)

theorem status_inv_foldl_range {r : ValidationResult} (h : r.status_inv)
    (ms : List Metric) : (List.foldl Validator.range_step r ms).status_inv := by
  induction ms generalizing r with
  | nil => exact h
  | cons m rest ih => exact ih (status_inv_range_step h m)

theorem errors_pre_add_error (r : ValidationResult) (e : String) :
    r.errors <+: (r.add_error e).errors :=
  ⟨[e], rfl⟩

theorem errors_pre_add_warning (r : ValidationResult) (w : String) :
    r.errors <+: (r.add_warning w).errors :=
  List.prefix_rfl

theorem errors_pre_range_step (r : ValidationResult) (m : Metric) :
    r.errors <+: (Validator.range_step r m).errors := by
  unfold Validator.range_step
  split
  · exact List.prefix_rfl
  · split_ifs <;>
      (repeat
        first
        | exact List.prefix_rfl
        | refine List.IsPrefix.trans ?_ (errors_pre_add_warning _ _)
        | refine List.IsPrefix.trans ?_ (errors_pre_add_error _ _))

theorem errors_pre_foldl_range (r : ValidationResult) (ms : List Metric) :
    r.errors <+: (List.foldl Validator.range_step r ms).errors := by
  induction ms generalizing r with
  | nil => exact List.prefix_rfl
  | cons m rest ih => exact (errors_pre_range_step r m).trans (ih _)

theorem must_msg_mem_range_step (r : ValidationResult) {m : Metric}
    (hty : m.metric_type = "revenue") (hval : m.value ≤ 0) :
    Validator.must_be_positive_msg m ∈ (Validator.range_step r m).errors := by
  unfold Validator.range_step
  rw [hty]
  have hfind : Validator.VALUE_RANGES.find? (fun p => p.1 == "revenue") =
      some ("revenue", 0, 1000000000000) := by rfl
  rw [hfind]
  have hcond : ("revenue" = "revenue" ∧ m.value ≤ 0) := ⟨rfl, hval⟩
  split_ifs <;>
    simp_all [ValidationResult.add_error, ValidationResult.add_warning]

theorem must_msg_contains (m : Metric) :
    str_contains (Validator.must_be_positive_msg m) "must be positive" = true := by
  unfold str_contains Validator.must_be_positive_msg
  simp only [String.toList, String.data_append, List.append_assoc]
  apply sub_list_append_left
  apply sub_list_append_right
  decide

/-! ## C8 -/

/-- C8: any metric of type `revenue` with a non-positive value makes range
validation fail, with an error whose text contains `"must be positive"`. -/
theorem claim_c8 : ∀ (metrics : List Metric) (m : Metric), m ∈ metrics →
    m.metric_type = "revenue" → m.value ≤ 0 →
    (Validator.validate_ranges metrics).validation_status = "failed" ∧
    ∃ e ∈ (Validator.validate_ranges metrics).errors,
      str_contains e "must be positive" = true := by
  intro metrics m hm hty hval
  obtain ⟨s, t2, rfl⟩ := List.append_of_mem hm
  have hmem : Validator.must_be_positive_msg m ∈
      (Validator.validate_ranges (s ++ m :: t2)).errors := by
    unfold Validator.validate_ranges
    rw [List.foldl_append, List.foldl_cons]
    exact (errors_pre_foldl_range _ t2).subset
      (must_msg_mem_range_step (List.foldl Validator.range_step ValidationResult.init s)
        hty hval)
  have hinv : (Validator.validate_ranges (s ++ m :: t2)).status_inv :=
    status_inv_foldl_range ValidationResult.status_inv_init _
  exact ⟨hinv.1.mpr (List.ne_nil_of_mem hmem), _, hmem, must_msg_contains m⟩

/-- Witness for C8 at the single-metric input `[{revenue, -100}]`. -/
theorem claim_c8_witness :
    (Validator.validate_ranges [⟨"revenue", "Revenue", -100, 1⟩]).validation_status = "failed" ∧
    ∃ e ∈ (Validator.validate_ranges [⟨"revenue", "Revenue", -100, 1⟩]).errors,
      str_contains e "must be positive" = true :=
  claim_c8 [⟨"revenue", "Revenue", -100, 1⟩] ⟨"revenue", "Revenue", -100, 1⟩
    (by simp) rfl (by norm_num)

theorem validate_relationships_spec (metrics : List Metric) (r c g : ℚ)
    (hr : Validator.lookup_val metrics "revenue" = some r)
    (hc : Validator.lookup_val metrics "cogs" = some c)
    (hg : Validator.lookup_val metrics "gross_profit" = some g) :
    (Validator.validate_relationships metrics).warnings =
      (if |g - (r - c)| > max (|r - c| * (1 / 100)) 1000 then
        [Validator.mismatch_msg (r - c) r c g] else [])
    ∧ (Validator.validate_relationships metrics).errors =
      (if r > c ∧ g ≤ 0 then [Validator.gp_sign_msg g] else [])
    ∧ (Validator.validate_relationships metrics).validation_status =
      (if r > c ∧ g ≤ 0 then "failed"
       else if |g - (r - c)| > max (|r - c| * (1 / 100)) 1000 then "flagged"
       else "passed") := by
  unfold Validator.validate_relationships
  rw [hr, hc, hg]
  dsimp only
  by_cases h1 : |g - (r - c)| > max (|r - c| * (1 / 100)) 1000 <;>
    by_cases h2 : r > c <;>
      by_cases h3 : g ≤ 0 <;>
        simp_all [ValidationResult.add_warning, ValidationResult.add_error,
          ValidationResult.init]
  all_goals (try (split_ifs <;> simp_all))

/-! ## C5 -/

/-- C5: with revenue, cogs and gross profit all present, relationship
validation warns exactly when the gross-profit mismatch exceeds
`max(1% of |revenue − cogs|, 1000)` and errs exactly when `revenue > cogs`
yet `gross_profit ≤ 0`; the concrete `{1000000, 600000, 400000}` metric set
yields no warnings, and gross profit `450000` instead yields exactly one
mismatch warning and status `"flagged"`. -/
theorem claim_c5 : ∀ (metrics : List Metric) (r c g : ℚ),
    Validator.lookup_val metrics "revenue" = some r →
    Validator.lookup_val metrics "cogs" = some c →
    Validator.lookup_val metrics "gross_profit" = some g →
    ((Validator.validate_relationships metrics).warnings ≠ [] ↔
      |g - (r - c)| > max (|r - c| * (1 / 100)) 1000)
    ∧ ((Validator.validate_relationships metrics).errors ≠ [] ↔ (r > c ∧ g ≤ 0))
    ∧ (Validator.validate_relationships
        [⟨"revenue", "Revenue", 1000000, 1⟩, ⟨"cogs", "COGS", 600000, 1⟩,
         ⟨"gross_profit", "Gross Profit", 400000, 1⟩]).warnings = []
    ∧ (Validator.validate_relationships
        [⟨"revenue", "Revenue", 1000000, 1⟩, ⟨"cogs", "COGS", 600000, 1⟩,
         ⟨"gross_profit", "Gross Profit", 450000, 1⟩]).warnings.length = 1
    ∧ (Validator.validate_relationships
        [⟨"revenue", "Revenue", 1000000, 1⟩, ⟨"cogs", "COGS", 600000, 1⟩,
         ⟨"gross_profit", "Gross Profit", 450000, 1⟩]).validation_status = "flagged" := by
  intro metrics r c g hr hc hg
  obtain ⟨hw, he, -⟩ := validate_relationships_spec metrics r c g hr hc hg
  obtain ⟨hw1, -, -⟩ := validate_relationships_spec
    [⟨"revenue", "Revenue", 1000000, 1⟩, ⟨"cogs", "COGS", 600000, 1⟩,
     ⟨"gross_profit", "Gross Profit", 400000, 1⟩] 1000000 600000 400000 rfl rfl rfl
  obtain ⟨hw2, -, hs2⟩ := validate_relationships_spec
    [⟨"revenue", "Revenue", 1000000, 1⟩, ⟨"cogs", "COGS", 600000, 1⟩,
     ⟨"gross_profit", "Gross Profit", 450000, 1⟩] 1000000 600000 450000 rfl rfl rfl
  have hmax : max (|(1000000 : ℚ) - 600000| * (1 / 100)) 1000 = 4000 := by
    rw [show |(1000000 : ℚ) - 600000| = 400000 by norm_num]
    rw [max_eq_left (by norm_num)]
    norm_num
  have hc400 : ¬(|(400000 : ℚ) - (1000000 - 600000)| >
      max (|(1000000 : ℚ) - 600000| * (1 / 100)) 1000) := by
    rw [hmax, show |(400000 : ℚ) - (1000000 - 600000)| = 0 by norm_num]
    norm_num
  have hc450 : |(450000 : ℚ) - (1000000 - 600000)| >
      max (|(1000000 : ℚ) - 600000| * (1 / 100)) 1000 := by
    rw [hmax, show |(450000 : ℚ) - (1000000 - 600000)| = 50000 by norm_num]
    norm_num
  refine ⟨?_, ?_, ?_, ?_, ?_⟩
  · rw [hw]; split_ifs with h
    · exact iff_of_true (by simp) h
    · exact iff_of_false (by simp) h
  · rw [he]; split_ifs with h
    · exact iff_of_true (by simp) h
    · exact iff_of_false (by simp) h
  · rw [hw1, if_neg hc400]
  · rw [hw2, if_pos hc450]
    rfl
  · rw [hs2, if_neg (by norm_num), if_pos hc450]

/-- Witness for C5 at the concrete metric set with gross profit 450000. -/
theorem claim_c5_witness :
    ((Validator.validate_relationships
        [⟨"revenue", "Revenue", 1000000, 1⟩, ⟨"cogs", "COGS", 600000, 1⟩,
         ⟨"gross_profit", "Gross Profit", 450000, 1⟩]).warnings ≠ [] ↔
      |(450000 : ℚ) - (1000000 - 600000)| >
        max (|(1000000 : ℚ) - 600000| * (1 / 100)) 1000)
    ∧ ((Validator.validate_relationships
        [⟨"revenue", "Revenue", 1000000, 1⟩, ⟨"cogs", "COGS", 600000, 1⟩,
         ⟨"gross_profit", "Gross Profit", 450000, 1⟩]).errors ≠ [] ↔
      ((1000000 : ℚ) > 600000 ∧ (450000 : ℚ) ≤ 0))
    ∧ (Validator.validate_relationships
        [⟨"revenue", "Revenue", 1000000, 1⟩, ⟨"cogs", "COGS", 600000, 1⟩,
         ⟨"gross_profit", "Gross Profit", 400000, 1⟩]).warnings = []
    ∧ (Validator.validate_relationships
        [⟨"revenue", "Revenue", 1000000, 1⟩, ⟨"cogs", "COGS", 600000, 1⟩,
         ⟨"gross_profit", "Gross Profit", 450000, 1⟩]).warnings.length = 1
    ∧ (Validator.validate_relationships
        [⟨"revenue", "Revenue", 1000000, 1⟩, ⟨"cogs", "COGS", 600000, 1⟩,
         ⟨"gross_profit", "Gross Profit", 450000, 1⟩]).validation_status = "flagged" :=
  claim_c5
    [⟨"revenue", "Revenue", 1000000, 1⟩, ⟨"cogs", "COGS", 600000, 1⟩,
     ⟨"gross_profit", "Gross Profit", 450000, 1⟩] 1000000 600000 450000 rfl rfl rfl

/-! ## C1 -/

theorem scan_info_aux_none_iff (ls : List RetryHandler.PLog) :
    ∀ acc : RetryHandler.EventData,
    ((RetryHandler.scan_info_aux acc ls).document_name = none ∧
     (RetryHandler.scan_info_aux acc ls).document_type = none) ↔
    ((acc.document_name = none ∧ acc.document_type = none) ∧
     ∀ l ∈ ls, l.event_data.document_name = none ∧ l.event_data.document_type = none) := by
  induction ls with
  | nil => intro acc; simp [RetryHandler.scan_info_aux]
  | cons l rest ih =>
    intro acc
    rw [RetryHandler.scan_info_aux]
    by_cases hbrk : (RetryHandler.truthy (match l.event_data.document_name with
        | some v => some v
        | none => acc.document_name) &&
      RetryHandler.truthy (match l.event_data.document_type with
        | some v => some v
        | none => acc.document_type)) = true
    · rw [if_pos hbrk]
      simp only [Bool.and_eq_true] at hbrk
      obtain ⟨hn, ht⟩ := hbrk
      constructor
      · intro ⟨h1, h2⟩
        exfalso
        cases hv : (match l.event_data.document_name with
            | some v => some v
            | none => acc.document_name) with
        | none => rw [hv] at hn; simp [RetryHandler.truthy] at hn
        | some s => rw [hv] at h1; simp at h1
      · rintro ⟨⟨ha1, ha2⟩, hall⟩
        exfalso
        obtain ⟨hl1, hl2⟩ := hall l (List.mem_cons_self l rest)
        rw [hl1, ha1] at hn
        simp [RetryHandler.truthy] at hn
    · rw [if_neg hbrk]
      rw [ih]
      constructor
      · rintro ⟨⟨h1, h2⟩, hall⟩
        cases hn : l.event_data.document_name with
        | some s => rw [hn] at h1; simp at h1
        | none =>
          cases ht : l.event_data.document_type with
          | some s => rw [ht] at h2; simp at h2
          | none =>
            rw [hn] at h1
            rw [ht] at h2
            exact ⟨⟨h1, h2⟩, fun x hx => by
              rcases List.mem_cons.mp hx with rfl | hx'
              · exact ⟨hn, ht⟩
              · exact hall x hx'⟩
      · rintro ⟨⟨ha1, ha2⟩, hall⟩
        obtain ⟨hl1, hl2⟩ := hall l (List.mem_cons_self l rest)
        refine ⟨⟨?_, ?_⟩, fun x hx => hall x (List.mem_cons_of_mem l hx)⟩
        · rw [hl1]; exact ha1
        · rw [hl2]; exact ha2

theorem scan_info_none_iff (logs : List RetryHandler.PLog) :
    ((RetryHandler.scan_info logs).document_name = none ∧
     (RetryHandler.scan_info logs).document_type = none) ↔
    ∀ l ∈ logs, l.event_data.document_name = none ∧ l.event_data.document_type = none := by
  rw [RetryHandler.scan_info, scan_info_aux_none_iff]
  simp [List.mem_reverse]

/-- Counterexample for C1 as stated: a log holding both a
`validation_completed` event and a `failed` event (whose payload carries a
document name but no document type) is judged eligible — the code never
consults `validation_completed` once `failed` is present, and it accepts
partially recovered metadata. -/
theorem claim_c1_counterexample :
    (RetryHandler.check_retry_eligibility
      [⟨"validation_completed", ⟨none, none⟩⟩, ⟨"failed", ⟨some "report.pdf", none⟩⟩]).1 = true
    ∧ "validation_completed" ∈
      ([⟨"validation_completed", ⟨none, none⟩⟩, ⟨"failed", ⟨some "report.pdf", none⟩⟩] :
        List RetryHandler.PLog).map (·.event_type)
    ∧ ∀ l ∈ ([⟨"validation_completed", ⟨none, none⟩⟩, ⟨"failed", ⟨some "report.pdf", none⟩⟩] :
        List RetryHandler.PLog), l.event_data.document_type = none := by
  refine ⟨by decide, by decide, by decide⟩

/-- C1 (amended): retry eligibility is true iff the log is non-empty, the
event types contain `failed`, at least one of `document_name` /
`document_type` occurs in some event payload, and the number of
`retry_initiated` events is strictly below 5; `validation_completed` plays
no role once `failed` is present. -/
theorem claim_c1 : ∀ logs : List RetryHandler.PLog,
    (RetryHandler.check_retry_eligibility logs).1 = true ↔
      (logs ≠ [] ∧ "failed" ∈ logs.map (·.event_type) ∧
       (∃ l ∈ logs, l.event_data.document_name ≠ none ∨ l.event_data.document_type ≠ none) ∧
       logs.countP (fun l => l.event_type == "retry_initiated") < 5) := by
  intro logs
  simp only [RetryHandler.check_retry_eligibility]
  by_cases h1 : logs = []
  · rw [if_pos h1]
    simp [h1]
  · rw [if_neg h1]
    by_cases h2 : "failed" ∈ logs.map (fun l => l.event_type)
    · rw [if_neg (not_not_intro h2)]
      by_cases h3 : ((RetryHandler.scan_info logs).document_name = none ∧
          (RetryHandler.scan_info logs).document_type = none)
      · rw [if_pos h3]
        refine iff_of_false (by simp) ?_
        rintro ⟨-, -, ⟨l, hl, hor⟩, -⟩
        obtain ⟨hn, ht⟩ := (scan_info_none_iff logs).mp h3 l hl
        rcases hor with h | h
        · exact h hn
        · exact h ht
      · rw [if_neg h3]
        by_cases h4 : 5 ≤ logs.countP (fun l => l.event_type == "retry_initiated")
        · rw [if_pos h4]
          refine iff_of_false (by simp) ?_
          rintro ⟨-, -, -, hc⟩
          omega
        · rw [if_neg h4]
          refine iff_of_true rfl ⟨h1, h2, ?_, by omega⟩
          by_contra hno
          push_neg at hno
          exact h3 ((scan_info_none_iff logs).mpr hno)
    · rw [if_pos h2]
      by_cases h3 : "validation_completed" ∈ logs.map (fun l => l.event_type)
      · rw [if_pos h3]
        exact iff_of_false (by simp) (fun h => h2 h.2.1)
      · rw [if_neg h3]
        exact iff_of_false (by simp) (fun h => h2 h.2.1)

/-- Witness for C1 (amended) at a concrete one-event failed log. -/
theorem claim_c1_witness :
    (RetryHandler.check_retry_eligibility
      [⟨"failed", ⟨some "report.pdf", some "pdf"⟩⟩]).1 = true ↔
      (([⟨"failed", ⟨some "report.pdf", some "pdf"⟩⟩] : List RetryHandler.PLog) ≠ [] ∧
       "failed" ∈ ([⟨"failed", ⟨some "report.pdf", some "pdf"⟩⟩] :
          List RetryHandler.PLog).map (·.event_type) ∧
       (∃ l ∈ ([⟨"failed", ⟨some "report.pdf", some "pdf"⟩⟩] : List RetryHandler.PLog),
          l.event_data.document_name ≠ none ∨ l.event_data.document_type ≠ none) ∧
       ([⟨"failed", ⟨some "report.pdf", some "pdf"⟩⟩] : List RetryHandler.PLog).countP
          (fun l => l.event_type == "retry_initiated") < 5) :=
  claim_c1 [⟨"failed", ⟨some "report.pdf", some "pdf"⟩⟩]

/-! ### Replace lemmas for the comma-only branch -/

theorem replace_all_aux_single_nil (c : Char) : ∀ (fuel : ℕ) (t : List Char),
    t.length ≤ fuel →
    replace_all_aux [c] [] fuel t = t.filter (fun x => x ≠ c) := by
  intro fuel
  induction fuel with
  | zero =>
    intro t ht
    have : t = [] := List.length_eq_zero.mp (Nat.le_zero.mp ht)
    subst this
    rfl
  | succ n ih =>
    intro t ht
    cases t with
    | nil => rfl
    | cons a rest =>
      rw [replace_all_aux]
      by_cases hac : a = c
      · subst hac
        rw [if_pos ⟨by simp, by simp [List.isPrefixOf]⟩]
        simp only [List.length_cons, List.length_nil, List.drop_succ_cons, List.drop_zero,
          List.nil_append, List.length_singleton]
        rw [ih rest (Nat.le_of_succ_le_succ (by simpa using ht))]
        simp [List.filter_cons]
      · rw [if_neg (by
          rintro ⟨-, hpre⟩
          simp [List.isPrefixOf] at hpre
          exact hac hpre.symm)]
        rw [ih rest (Nat.le_of_succ_le_succ (by simpa using ht))]
        simp [List.filter_cons, hac]

theorem replace_all_single_nil (c : Char) (t : List Char) :
    replace_all [c] [] t = t.filter (fun x => x ≠ c) :=
  replace_all_aux_single_nil c t.length t le_rfl

theorem replace_one_comma (t : List Char) (h : ',' ∈ t) :
    replace_one [','] ['.'] t =
      t.takeWhile (fun x => x ≠ ',') ++ '.' :: (t.dropWhile (fun x => x ≠ ',')).tail := by
  induction t with
  | nil => cases h
  | cons a rest ih =>
    by_cases hac : a = ','
    · subst hac
      rw [replace_one, if_pos ⟨by simp, by simp [List.isPrefixOf]⟩]
      simp [List.takeWhile_cons, List.dropWhile_cons]
    · have hmem : ',' ∈ rest := by
        rcases List.mem_cons.mp h with h' | h'
        · exact absurd h'.symm hac
        · exact h'
      rw [replace_one, if_neg (by
          rintro ⟨-, hpre⟩
          simp [List.isPrefixOf] at hpre
          exact hac hpre.symm)]
      rw [ih hmem]
      simp [List.takeWhile_cons, List.dropWhile_cons, hac]

/-! ## C4 -/

/-- Counterexample for C4 as stated: on `"1,234,56"` (two digits after the
last comma) the parser replaces only the FIRST comma by a decimal point and
deletes the remaining commas, yielding 1.23456 — not 1234.56 as the claim's
example asserts. -/
theorem claim_c4_counterexample :
    NumberParser.parse_financial_number (some ("1,234,56".toList)) =
      (some ((123456 : ℚ) / 100000), none)
    ∧ ((123456 : ℚ) / 100000) ≠ 1234.56 := by
  constructor
  · have hmag : NumberParser.magnitude_step ("1,234,56".toList) =
        (1, "1,234,56".toList) := by
      unfold NumberParser.magnitude_step
      rw [show NumberParser.MAGNITUDE_MULTIPLIERS.find?
          (fun p => p.1.isSuffixOf (("1,234,56".toList).map Char.toUpper)) = none from by decide]
    have hsep : NumberParser.sep_step ("1,234,56".toList) = "1.23456".toList := by decide
    have hpf : NumberParser.parse_float ("1.23456".toList) =
        some ((123456 : ℚ) / 100000) := by
      simp [NumberParser.parse_float, NumberParser.digits_val]
      norm_num
    simp only [NumberParser.parse_financial_number, NumberParser.parse_after_empty_check,
      NumberParser.parse_core,
      show py_strip ("1,234,56".toList) = "1,234,56".toList from by decide,
      show NumberParser.strip_currency ("1,234,56".toList) = "1,234,56".toList from by decide,
      show NumberParser.detect_currency ("1,234,56".toList) = none from by decide,
      hmag, hsep, hpf]
    rw [if_neg (by decide : ¬("1,234,56".toList = []))]
    rw [if_neg (by decide : ¬(("1,234,56".toList).head? = some '(' ∧
        ("1,234,56".toList).getLast? = some ')'))]
    norm_num
  · norm_num

/-- C4 (amended): for comma-only inputs the separator step treats the text
as comma-decimal exactly when two characters follow the last comma, in
which case the FIRST comma becomes the decimal point and all later commas
are deleted; otherwise every comma is removed as a thousands separator.
In particular `"1,234,56"` parses as 1.23456. -/
theorem claim_c4 : ∀ t : List Char, ',' ∈ t → '.' ∉ t →
    (NumberParser.sep_step t =
      if NumberParser.chars_after_last_comma t = 2 then
        t.takeWhile (fun x => x ≠ ',') ++ '.' ::
          ((t.dropWhile (fun x => x ≠ ',')).tail.filter (fun x => x ≠ ','))
      else t.filter (fun x => x ≠ ','))
    ∧ NumberParser.parse_financial_number (some ("1,234,56".toList)) =
        (some ((123456 : ℚ) / 100000), none) := by
  intro t h hp
  refine ⟨?_, claim_c4_counterexample.1⟩
  have hcc : 0 < t.count ',' := List.count_pos_iff.mpr h
  have hpc : t.count '.' = 0 := List.count_eq_zero.mpr hp
  unfold NumberParser.sep_step
  rw [if_neg (by rw [hpc]; rintro ⟨-, h2⟩; exact absurd h2 (by norm_num))]
  rw [if_pos hcc]
  split_ifs with hchars
  · rw [replace_one_comma t h, replace_all_single_nil]
    rw [List.filter_append, List.filter_cons]
    rw [List.filter_eq_self.mpr (fun a ha => by
      have := List.mem_takeWhile_imp ha
      simpa using this)]
    simp
  · rw [replace_all_single_nil]

/-- Witness for C4 (amended) at the concrete input `"1,234,56"`. -/
theorem claim_c4_witness :
    (NumberParser.sep_step ("1,234,56".toList) =
      if NumberParser.chars_after_last_comma ("1,234,56".toList) = 2 then
        ("1,234,56".toList).takeWhile (fun x => x ≠ ',') ++ '.' ::
          ((("1,234,56".toList).dropWhile (fun x => x ≠ ',')).tail.filter (fun x => x ≠ ','))
      else ("1,234,56".toList).filter (fun x => x ≠ ','))
    ∧ NumberParser.parse_financial_number (some ("1,234,56".toList)) =
        (some ((123456 : ℚ) / 100000), none) :=
  claim_c4 ("1,234,56".toList) (by decide) (by decide)

/-! ## C6 -/

theorem parse_core_shape (neg : Bool) (cur : Option String) (text : List Char) :
    (NumberParser.parse_core neg cur text).1 = none ↔
      NumberParser.parse_core neg cur text = (none, none) := by
  unfold NumberParser.parse_core
  cases hp : NumberParser.parse_float
      (NumberParser.sep_step (NumberParser.magnitude_step text).2) <;>
    simp [hp]

/-- C6: `parse_financial_number` is total by construction and its value
component is `none` exactly when the whole result is `(none, none)` — it
never returns a detected currency without a parsed value. -/
theorem claim_c6 : ∀ input : Option (List Char),
    ((NumberParser.parse_financial_number input).1 = none ↔
      NumberParser.parse_financial_number input = (none, none)) := by
  intro input
  cases input with
  | none => simp [NumberParser.parse_financial_number]
  | some t0 =>
    by_cases h : t0 = []
    · simp [NumberParser.parse_financial_number, h]
    · simp only [NumberParser.parse_financial_number, if_neg h]
      dsimp only [NumberParser.parse_after_empty_check]
      split_ifs <;> exact parse_core_shape _ _ _

/-- Witness for C6 at the unparseable input `"not a number"`. -/
theorem claim_c6_witness :
    (NumberParser.parse_financial_number (some ("not a number".toList))).1 = none ↔
      NumberParser.parse_financial_number (some ("not a number".toList)) = (none, none) :=
  claim_c6 (some ("not a number".toList))

/-! ### Lemmas for C7 -/

theorem dropWhile_eq_self_of {p : Char → Bool} (l : List Char)
    (h : ∀ ch ∈ l, p ch = false) : l.dropWhile p = l := by
  cases l with
  | nil => rfl
  | cons a rest =>
    rw [List.dropWhile_cons, h a (List.mem_cons_self a rest)]
    simp

theorem py_strip_eq_self {t : List Char} (h : ∀ ch ∈ t, ch.isWhitespace = false) :
    py_strip t = t := by
  unfold py_strip py_strip_left
  rw [dropWhile_eq_self_of t h]
  rw [dropWhile_eq_self_of t.reverse (fun ch hch => h ch (List.mem_reverse.mp hch))]
  exact List.reverse_reverse t

theorem digit_or_dot_not_ws {ch : Char} (h : ch.isDigit = true ∨ ch = '.') :
    ch.isWhitespace = false := by
  rcases hw : ch.isWhitespace with _ | _
  · rfl
  · exfalso
    simp only [Char.isWhitespace, Bool.or_eq_true, beq_iff_eq, decide_eq_true_eq] at hw
    rcases h with h | h
    · rcases hw with ⟨⟨rfl | rfl⟩ | rfl⟩ | rfl <;> simp [Char.isDigit] at h
    · subst h
      rcases hw with ⟨⟨h | h⟩ | h⟩ | h <;> exact absurd h (by decide)

theorem replace_all_aux_id {pat rep : List Char} : ∀ (fuel : ℕ) (t : List Char),
    sub_list pat t = false → replace_all_aux pat rep fuel t = t := by
  intro fuel
  induction fuel with
  | zero => intro t _; rfl
  | succ n ih =>
    intro t hs
    cases t with
    | nil => rfl
    | cons a rest =>
      simp only [sub_list, Bool.or_eq_false_iff] at hs
      rw [replace_all_aux, if_neg (fun hand => by rw [hand.2] at hs; exact absurd hs.1 (by simp))]
      rw [ih rest hs.2]

theorem replace_all_id {pat rep t : List Char} (h : sub_list pat t = false) :
    replace_all pat rep t = t :=
  replace_all_aux_id t.length t h

theorem strip_currency_id {t : List Char}
    (h : ∀ sym ∈ NumberParser.CURRENCY_SYMBOLS, sub_list sym t = false) :
    NumberParser.strip_currency t = t := by
  unfold NumberParser.strip_currency
  have : ∀ (syms : List (List Char)), (∀ sym ∈ syms, sub_list sym t = false) →
      syms.foldl (fun acc sym => replace_all sym [] acc) t = t := by
    intro syms
    induction syms with
    | nil => intro _; rfl
    | cons s rest ih =>
      intro hall
      rw [List.foldl_cons, replace_all_id (hall s (List.mem_cons_self s rest))]
      exact ih (fun sym hsym => hall sym (List.mem_cons_of_mem s hsym))
  exact this _ h

theorem singleton_suffix (x y : Char) (l : List Char) :
    ([x].isSuffixOf (l ++ [y])) = (x == y) := by
  simp [List.isSuffixOf, List.reverse_append, List.isPrefixOf]

/-- The multipliers the spec assigns to the four short magnitude suffixes. -/
def suffix_multiplier (c : Char) : ℚ :=
  if c.toUpper = 'K' then 1000
  else if c.toUpper = 'M' then 1000000
  else if c.toUpper = 'B' then 1000000000
  else if c.toUpper = 'T' then 1000000000000
  else 1

theorem sep_step_id {t : List Char} (h : ',' ∉ t) : NumberParser.sep_step t = t := by
  have hc : t.count ',' = 0 := List.count_eq_zero.mpr h
  unfold NumberParser.sep_step
  rw [if_neg (fun hand => by rw [hc] at hand; exact absurd hand.1 (by norm_num))]
  rw [if_neg (by rw [hc]; norm_num)]

theorem parse_float_nil : NumberParser.parse_float [] = none := rfl

theorem find_mag_K (l : List Char) :
    NumberParser.MAGNITUDE_MULTIPLIERS.find?
      (fun p => p.1.isSuffixOf (l ++ ['K'])) = some ("K".toList, 1000) := by
  unfold NumberParser.MAGNITUDE_MULTIPLIERS
  exact List.find?_cons_of_pos _
    (by rw [show ("K".toList : List Char) = ['K'] from rfl, singleton_suffix]; decide)

theorem find_mag_M (l : List Char) :
    NumberParser.MAGNITUDE_MULTIPLIERS.find?
      (fun p => p.1.isSuffixOf (l ++ ['M'])) = some ("M".toList, 1000000) := by
  unfold NumberParser.MAGNITUDE_MULTIPLIERS
  rw [List.find?_cons_of_neg _
    (by rw [show ("K".toList : List Char) = ['K'] from rfl, singleton_suffix]; decide)]
  exact List.find?_cons_of_pos _
    (by rw [show ("M".toList : List Char) = ['M'] from rfl, singleton_suffix]; decide)

theorem find_mag_B (l : List Char) :
    NumberParser.MAGNITUDE_MULTIPLIERS.find?
      (fun p => p.1.isSuffixOf (l ++ ['B'])) = some ("B".toList, 1000000000) := by
  unfold NumberParser.MAGNITUDE_MULTIPLIERS
  rw [List.find?_cons_of_neg _
    (by rw [show ("K".toList : List Char) = ['K'] from rfl, singleton_suffix]; decide)]
  rw [List.find?_cons_of_neg _
    (by rw [show ("M".toList : List Char) = ['M'] from rfl, singleton_suffix]; decide)]
  exact List.find?_cons_of_pos _
    (by rw [show ("B".toList : List Char) = ['B'] from rfl, singleton_suffix]; decide)

theorem find_mag_T (l : List Char) :
    NumberParser.MAGNITUDE_MULTIPLIERS.find?
      (fun p => p.1.isSuffixOf (l ++ ['T'])) = some ("T".toList, 1000000000000) := by
  unfold NumberParser.MAGNITUDE_MULTIPLIERS
  rw [List.find?_cons_of_neg _
    (by rw [show ("K".toList : List Char) = ['K'] from rfl, singleton_suffix]; decide)]
  rw [List.find?_cons_of_neg _
    (by rw [show ("M".toList : List Char) = ['M'] from rfl, singleton_suffix]; decide)]
  rw [List.find?_cons_of_neg _
    (by rw [show ("B".toList : List Char) = ['B'] from rfl, singleton_suffix]; decide)]
  exact List.find?_cons_of_pos _
    (by rw [show ("T".toList : List Char) = ['T'] from rfl, singleton_suffix]; decide)

theorem magnitude_step_suffix {t : List Char} {c : Char}
    (hall : ∀ ch ∈ t, ch.isDigit = true ∨ ch = '.')
    (hc : c ∈ (['K', 'M', 'B', 'T', 'k', 'm', 'b', 't'] : List Char)) :
    NumberParser.magnitude_step (t ++ [c]) = (suffix_multiplier c, t) := by
  have hpst : py_strip t = t :=
    py_strip_eq_self (fun ch hch => digit_or_dot_not_ws (hall ch hch))
  have hmap : (t ++ [c]).map Char.toUpper = t.map Char.toUpper ++ [c.toUpper] := by simp
  have htake1 : (t ++ [c]).take ((t ++ [c]).length - 1) = t := by
    rw [show (t ++ [c]).length - 1 = t.length by simp]
    exact List.take_left t [c]
  simp only [List.mem_cons, List.not_mem_nil, or_false] at hc
  rcases hc with rfl | rfl | rfl | rfl | rfl | rfl | rfl | rfl <;>
    (unfold NumberParser.magnitude_step
     rw [hmap]
     first
       | rw [show Char.toUpper 'K' = 'K' from by decide, find_mag_K]
       | rw [show Char.toUpper 'M' = 'M' from by decide, find_mag_M]
       | rw [show Char.toUpper 'B' = 'B' from by decide, find_mag_B]
       | rw [show Char.toUpper 'T' = 'T' from by decide, find_mag_T]
       | rw [show Char.toUpper 'k' = 'K' from by decide, find_mag_K]
       | rw [show Char.toUpper 'm' = 'M' from by decide, find_mag_M]
       | rw [show Char.toUpper 'b' = 'B' from by decide, find_mag_B]
       | rw [show Char.toUpper 't' = 'T' from by decide, find_mag_T]
     dsimp only
     first
       | rw [show (("K".toList : List Char)).length = 1 from rfl]
       | rw [show (("M".toList : List Char)).length = 1 from rfl]
       | rw [show (("B".toList : List Char)).length = 1 from rfl]
       | rw [show (("T".toList : List Char)).length = 1 from rfl]
     rw [htake1, hpst]
     rfl)

theorem detect_currency_none {t : List Char} {c : Char}
    (hall : ∀ ch ∈ t, ch.isDigit = true ∨ ch = '.')
    (hc : c ∈ (['K', 'M', 'B', 'T', 'k', 'm', 'b', 't'] : List Char)) :
    NumberParser.detect_currency (t ++ [c]) = none := by
  have habs : ∀ w : Char, ¬(w.isDigit = true ∨ w = '.') →
      w ∉ (['K', 'M', 'B', 'T', 'k', 'm', 'b', 't'] : List Char) → w ∉ t ++ [c] := by
    intro w hw1 hw2 hmem
    rcases List.mem_append.mp hmem with hm | hm
    · exact hw1 (hall w hm)
    · rw [List.mem_singleton] at hm
      subst hm
      exact hw2 hc
  unfold NumberParser.detect_currency NumberParser.currency_map
  rw [List.find?_cons_of_neg _ (by
    rw [sub_list_eq_false (show '$' ∈ ("$".toList : List Char) from by decide)
      (habs '$' (by decide) (by decide))]; simp)]
  rw [List.find?_cons_of_neg _ (by
    rw [sub_list_eq_false (show '€' ∈ ("€".toList : List Char) from by decide)
      (habs '€' (by decide) (by decide))]; simp)]
  rw [List.find?_cons_of_neg _ (by
    rw [sub_list_eq_false (show '£' ∈ ("£".toList : List Char) from by decide)
      (habs '£' (by decide) (by decide))]; simp)]
  rw [List.find?_cons_of_neg _ (by
    rw [sub_list_eq_false (show '¥' ∈ ("¥".toList : List Char) from by decide)
      (habs '¥' (by decide) (by decide))]; simp)]
  rw [List.find?_cons_of_neg _ (by
    rw [sub_list_eq_false (show '₹' ∈ ("₹".toList : List Char) from by decide)
      (habs '₹' (by decide) (by decide))]; simp)]
  rw [List.find?_cons_of_neg _ (by
    rw [sub_list_eq_false (show 'U' ∈ ("USD".toList : List Char) from by decide)
      (habs 'U' (by decide) (by decide))]; simp)]
  rw [List.find?_cons_of_neg _ (by
    rw [sub_list_eq_false (show 'E' ∈ ("EUR".toList : List Char) from by decide)
      (habs 'E' (by decide) (by decide))]; simp)]
  rw [List.find?_cons_of_neg _ (by
    rw [sub_list_eq_false (show 'G' ∈ ("GBP".toList : List Char) from by decide)
      (habs 'G' (by decide) (by decide))]; simp)]
  rw [List.find?_cons_of_neg _ (by
    rw [sub_list_eq_false (show 'J' ∈ ("JPY".toList : List Char) from by decide)
      (habs 'J' (by decide) (by decide))]; simp)]
  rw [List.find?_cons_of_neg _ (by
    rw [sub_list_eq_false (show 'I' ∈ ("INR".toList : List Char) from by decide)
      (habs 'I' (by decide) (by decide))]; simp)]
  rfl

theorem strip_currency_digits {t : List Char} {c : Char}
    (hall : ∀ ch ∈ t, ch.isDigit = true ∨ ch = '.')
    (hc : c ∈ (['K', 'M', 'B', 'T', 'k', 'm', 'b', 't'] : List Char)) :
    NumberParser.strip_currency (t ++ [c]) = t ++ [c] := by
  have habs : ∀ w : Char, ¬(w.isDigit = true ∨ w = '.') →
      w ∉ (['K', 'M', 'B', 'T', 'k', 'm', 'b', 't'] : List Char) → w ∉ t ++ [c] := by
    intro w hw1 hw2 hmem
    rcases List.mem_append.mp hmem with hm | hm
    · exact hw1 (hall w hm)
    · rw [List.mem_singleton] at hm
      subst hm
      exact hw2 hc
  refine strip_currency_id ?_
  intro sym hsym
  unfold NumberParser.CURRENCY_SYMBOLS at hsym
  simp only [List.mem_cons, List.not_mem_nil, or_false] at hsym
  rcases hsym with rfl | rfl | rfl | rfl | rfl | rfl | rfl | rfl | rfl | rfl
  · exact sub_list_eq_false (show '$' ∈ ("$".toList : List Char) from by decide)
      (habs '$' (by decide) (by decide))
  · exact sub_list_eq_false (show '€' ∈ ("€".toList : List Char) from by decide)
      (habs '€' (by decide) (by decide))
  · exact sub_list_eq_false (show '£' ∈ ("£".toList : List Char) from by decide)
      (habs '£' (by decide) (by decide))
  · exact sub_list_eq_false (show '¥' ∈ ("¥".toList : List Char) from by decide)
      (habs '¥' (by decide) (by decide))
  · exact sub_list_eq_false (show '₹' ∈ ("₹".toList : List Char) from by decide)
      (habs '₹' (by decide) (by decide))
  · exact sub_list_eq_false (show 'U' ∈ ("USD".toList : List Char) from by decide)
      (habs 'U' (by decide) (by decide))
  · exact sub_list_eq_false (show 'E' ∈ ("EUR".toList : List Char) from by decide)
      (habs 'E' (by decide) (by decide))
  · exact sub_list_eq_false (show 'G' ∈ ("GBP".toList : List Char) from by decide)
      (habs 'G' (by decide) (by decide))
  · exact sub_list_eq_false (show 'J' ∈ ("JPY".toList : List Char) from by decide)
      (habs 'J' (by decide) (by decide))
  · exact sub_list_eq_false (show 'I' ∈ ("INR".toList : List Char) from by decide)
      (habs 'I' (by decide) (by decide))

/-! ## C7 -/

/-- C7: appending any magnitude suffix `K/M/B/T` (either case) to a plain
positive decimal numeral multiplies the parsed value by the suffix's
multiplier (1e3 / 1e6 / 1e9 / 1e12), with no currency detected. -/
theorem claim_c7 : ∀ (t : List Char) (c : Char) (q : ℚ),
    (∀ ch ∈ t, ch.isDigit = true ∨ ch = '.') →
    c ∈ (['K', 'M', 'B', 'T', 'k', 'm', 'b', 't'] : List Char) →
    NumberParser.parse_float t = some q →
    0 < q →
    NumberParser.parse_financial_number (some (t ++ [c])) =
      (some (q * suffix_multiplier c), none) := by
  intro t c q hall hc hq _hpos
  have ht_ne : t ≠ [] := by
    intro h
    rw [h, parse_float_nil] at hq
    exact Option.noConfusion hq
  have hall2 : ∀ ch ∈ t ++ [c], ch.isWhitespace = false := by
    intro ch hch
    rcases List.mem_append.mp hch with hm | hm
    · exact digit_or_dot_not_ws (hall ch hm)
    · rw [List.mem_singleton] at hm
      subst hm
      simp only [List.mem_cons, List.not_mem_nil, or_false] at hc
      rcases hc with rfl | rfl | rfl | rfl | rfl | rfl | rfl | rfl <;> decide
  have hstrip : py_strip (t ++ [c]) = t ++ [c] := py_strip_eq_self hall2
  have hcur : NumberParser.detect_currency (t ++ [c]) = none :=
    detect_currency_none hall hc
  have hstripc : NumberParser.strip_currency (t ++ [c]) = t ++ [c] :=
    strip_currency_digits hall hc
  have hnotneg : ¬((t ++ [c]).head? = some '(' ∧ (t ++ [c]).getLast? = some ')') := by
    rintro ⟨-, hlast⟩
    rw [List.getLast?_concat] at hlast
    have hcp : c = ')' := Option.some.inj hlast
    subst hcp
    simp only [List.mem_cons, List.not_mem_nil, or_false] at hc
    rcases hc with h | h | h | h | h | h | h | h <;> exact absurd h (by decide)
  have hmag : NumberParser.magnitude_step (t ++ [c]) = (suffix_multiplier c, t) :=
    magnitude_step_suffix hall hc
  have hcomma : ',' ∉ t := by
    intro hm
    rcases hall ',' hm with h | h
    · exact absurd h (by decide)
    · exact absurd h (by decide)
  have hsep : NumberParser.sep_step t = t := sep_step_id hcomma
  simp only [NumberParser.parse_financial_number, NumberParser.parse_after_empty_check]
  rw [if_neg (by simp : ¬(t ++ [c] = ([] : List Char)))]
  simp only [hstrip, hcur, hstripc]
  rw [if_neg hnotneg]
  simp only [NumberParser.parse_core, hmag, hsep, hq]
  simp

/-- Witness for C7: `"2.5" ++ "M"` parses as 2.5 × 10⁶ with no currency. -/
theorem claim_c7_witness :
    NumberParser.parse_financial_number (some ("2.5".toList ++ ['M'])) =
      (some ((5 / 2 : ℚ) * suffix_multiplier 'M'), none) :=
  claim_c7 ("2.5".toList) 'M' (5 / 2) (by decide) (by decide)
    (by simp [NumberParser.parse_float, NumberParser.digits_val]; norm_num) (by norm_num)
